import Mathlib

/-!
Shallow embedding of the TandilV4 Telegram subscription bot (src/index.js).

The durable state is a JSON ledger `{ users: { userId -> record } }` read in
full by `loadDb` and rewritten in full by `saveDb`.  We model the ledger as an
association list from user ids to records, each operation as a function from
the loaded ledger (plus the current wall-clock time, which the source obtains
from `Date.now()`) to the ledger that ends up persisted, together with the
list of outbound transport effects the operation attempts.

JS truthiness of numeric fields is embedded explicitly: a numeric field is
truthy iff it is nonzero, an optional field is truthy iff it is present and
nonzero.  Timestamps are naturals (milliseconds since the epoch).
-/

namespace TandilV4

/-- `SUBSCRIPTION_DAYS` from the source configuration. -/
def SUBSCRIPTION_DAYS : Nat := 30

/-- `REFERRAL_BONUS_DAYS` from the source configuration. -/
def REFERRAL_BONUS_DAYS : Nat := 5

/-- `DAY_MS = 24 * 60 * 60 * 1000`. -/
def DAY_MS : Nat := 24 * 60 * 60 * 1000

/-- One user record of the ledger, with the exact fields `ensureUser` creates. -/
structure UserRecord where
  expiresAt : Option Nat
  referredBy : Option Nat
  referralsCount : Nat
  firstPaymentDone : Bool
  totalPaidCycles : Nat
  bonusDays : Nat
  deriving Repr, DecidableEq

/-- The zero-value record that `ensureUser` inserts on first access. -/
def defaultUser : UserRecord :=
  { expiresAt := none
    referredBy := none
    referralsCount := 0
    firstPaymentDone := false
    totalPaidCycles := 0
    bonusDays := 0 }

/-- The ledger `{ users: ... }`, as an association list keyed by user id
(JS object insertion order is kept: a fresh key is appended at the end). -/
structure Db where
  users : List (Nat × UserRecord)
  deriving Repr, DecidableEq

/-- Lookup of `db.users[u]` (first entry with the key wins). -/
def findUser : List (Nat × UserRecord) → Nat → Option UserRecord
  | [], _ => none
  | (k, v) :: rest, u => if k = u then some v else findUser rest u

/-- Lookup on the packaged ledger. -/
def Db.find (db : Db) (u : Nat) : Option UserRecord :=
  findUser db.users u

/-- Assignment `db.users[u] = r`: replace the entry in place, or append a new
one when the key is absent (JS property insertion order). -/
def setUsers : List (Nat × UserRecord) → Nat → UserRecord → List (Nat × UserRecord)
  | [], u, r => [(u, r)]
  | (k, v) :: rest, u, r =>
      if k = u then (u, r) :: rest else (k, v) :: setUsers rest u r

/-- Assignment on the packaged ledger. -/
def Db.set (db : Db) (u : Nat) (r : UserRecord) : Db :=
  ⟨setUsers db.users u r⟩

/-- The empty ledger `{ users: {} }`. -/
def emptyDb : Db := ⟨[]⟩

/-- JS truthiness of an optional numeric field: present and nonzero. -/
def optTruthy : Option Nat → Bool
  | none => false
  | some n => n != 0

/-- `loadDb`: read and parse the JSON file; any exception (missing file,
parse error, I/O error) is caught and yields the fresh ledger `{ users: {} }`.
The input models the outcome of `fs.readFileSync` + `JSON.parse`. -/
def loadDb (raw : Except Unit Db) : Db :=
  match raw with
  | Except.ok db => db
  | Except.error _ => emptyDb

/-- `ensureUser(db, userId)`: insert the zero-value record when the key is
absent, and return the (possibly extended) ledger together with the record
`db.users[userId]`. -/
def ensureUser (db : Db) (userId : Nat) : Db × UserRecord :=
  match db.find userId with
  | some r => (db, r)
  | none => (db.set userId defaultUser, defaultUser)

/-- The extension policy shared by `grantSubscription` and the referral
credit: `if (expiresAt && expiresAt > now) expiresAt += extraMs; else
expiresAt = now + extraMs`.  (For `expiresAt = 0` the truthiness test and the
comparison `0 > now` both fail, so the two branches agree with the source.) -/
def stackExpiration (now : Nat) (expiresAt : Option Nat) (extraMs : Nat) : Nat :=
  match expiresAt with
  | some e => if now < e then e + extraMs else now + extraMs
  | none => now + extraMs

/-- `grantSubscription(userId, baseDays)` acting on the loaded ledger:
consume `bonusDays`, extend or restart the subscription, bump
`totalPaidCycles`, persist, and return the new `expiresAt`. -/
def grantSubscription (db : Db) (now : Nat) (userId : Nat) (baseDays : Nat) :
    Db × Nat :=
  let eu := ensureUser db userId
  let db1 := eu.1
  let user := eu.2
  let bonusDays := user.bonusDays
  let totalDays := baseDays + bonusDays
  let newExpiresAt := stackExpiration now user.expiresAt (totalDays * DAY_MS)
  let user1 := { user with
                  bonusDays := 0
                  expiresAt := some newExpiresAt
                  totalPaidCycles := user.totalPaidCycles + 1 }
  (db1.set userId user1, newExpiresAt)

/-- Outbound transport effects an operation attempts (best effort in the
source: failures are logged, never rolled back). -/
inductive Effect where
  | sendMessage (chatId : Nat)
  | answerCbQuery (alert : Bool)
  | editMessage
  deriving Repr, DecidableEq

/-- `handleReferralOnFirstPayment(userId)` acting on the loaded ledger.
Returns the persisted ledger and the notification effects.  When
`firstPaymentDone` is already set the source returns before `saveDb`, so the
durable ledger is unchanged. -/
def handleReferralOnFirstPayment (db0 : Db) (now : Nat) (userId : Nat) :
    Db × List Effect :=
  let eu := ensureUser db0 userId
  let db := eu.1
  let user := eu.2
  if user.firstPaymentDone then
    (db0, [])
  else
    let user1 := { user with firstPaymentDone := true }
    let db1 := db.set userId user1
    match user1.referredBy with
    | none => (db1, [])
    | some refId =>
      if refId = 0 then (db1, [])
      else
        match db1.find refId with
        | none => (db1, [])
        | some refUser =>
          let refUser1 := { refUser with
                             referralsCount := refUser.referralsCount + 1 }
          let refUser2 := { refUser1 with
                             expiresAt := some (stackExpiration now
                               refUser1.expiresAt
                               (REFERRAL_BONUS_DAYS * DAY_MS)) }
          (db1.set refId refUser2, [Effect.sendMessage refId])

/-- `expireDate` computed by `createUniqueInviteLink`: seconds, capped at
24 hours from now and at the user's expiration. -/
def computeExpireDate (now : Nat) (expiresAt : Nat) : Nat :=
  let nowSec := now / 1000
  let expiresSec := expiresAt / 1000
  let maxLifetimeSec := 24 * 60 * 60
  min expiresSec (nowSec + maxLifetimeSec)

/-- Result of invite issuance: a fresh single-use link with its expiration
instant (seconds), or the static fallback `CHANNEL_INVITE_LINK`. -/
inductive InviteResult where
  | unique (expireDate : Nat)
  | fallback
  deriving Repr, DecidableEq

/-- `createUniqueInviteLink(userId, expiresAt)`: no channel configured or API
failure yields the fallback link; otherwise a single-use link expiring at
`computeExpireDate`. -/
def createUniqueInviteLink (channelConfigured : Bool) (apiOk : Bool)
    (now : Nat) (expiresAt : Nat) : InviteResult :=
  if !channelConfigured then InviteResult.fallback
  else if apiOk then InviteResult.unique (computeExpireDate now expiresAt)
  else InviteResult.fallback

/-- Per-record action of the expiration sweep: `if (!data.expiresAt)
continue;` skips absent *and zero* expirations (JS truthiness); an expiration
`<= now` is cleared to `null`. -/
def sweepRecord (now : Nat) (r : UserRecord) : UserRecord :=
  match r.expiresAt with
  | none => r
  | some e => if e = 0 then r else if e ≤ now then { r with expiresAt := none } else r

/-- `checkExpirations()` acting on the loaded ledger at time `now`: a no-op
when no channel is configured, otherwise every record is swept and the
batch is saved. -/
def checkExpirations (channelConfigured : Bool) (db : Db) (now : Nat) : Db :=
  if channelConfigured then
    ⟨db.users.map (fun p => (p.1, sweepRecord now p.2))⟩
  else db

/-- The `/start` handler acting on the loaded ledger.  `payload` is the
decoded referral payload: `none` when absent or not of the form `ref_<id>`;
`some 0` stands for any payload whose numeric part is falsy (`0` or `NaN`).
`saveDb` runs only when a new referral link is recorded, so on every other
path the durable ledger is the original `db0`. -/
def startHandler (db0 : Db) (userId : Nat) (payload : Option Nat) :
    Db × List Effect :=
  let eu := ensureUser db0 userId
  let db := eu.1
  let user := eu.2
  let linked : Db × List Effect :=
    match payload with
    | none => (db0, [])
    | some refId =>
      if refId ≠ 0 ∧ refId ≠ userId then
        if optTruthy user.referredBy then (db0, [])
        else (db.set userId { user with referredBy := some refId },
              [Effect.sendMessage refId])
      else (db0, [])
  (linked.1, linked.2 ++ [Effect.sendMessage userId])

/-- The proof-submission handler (photo/document/text in a private chat):
it never touches the ledger; it acknowledges the sender and, when an admin is
configured (`ADMIN_CHAT_ID` truthy), forwards the proof with the decision
keyboard. -/
def submitProofHandler (db : Db) (userId : Nat) (adminChatId : Nat) :
    Db × List Effect :=
  if adminChatId = 0 then (db, [Effect.sendMessage userId])
  else (db, [Effect.sendMessage userId, Effect.sendMessage adminChatId])

/-- Value of a decimal digit character (`c.toNat - '0'.toNat`). -/
def charToVal (c : Char) : Nat := c.toNat - 48

/-- Decimal rendering worker, most significant digit first, fuel-bounded the
way the runtime's own renderer is (the fuel never runs out for
`fuel ≥ number`). -/
def natToCharsAux : Nat → Nat → List Char → List Char
  | 0, _, acc => acc
  | fuel + 1, n, acc =>
    let acc1 := Nat.digitChar (n % 10) :: acc
    if n < 10 then acc1 else natToCharsAux fuel (n / 10) acc1

/-- Decimal rendering of a natural, as produced by the template literal
`${userId}` in the source. -/
def natToChars (n : Nat) : List Char := natToCharsAux (n + 1) n []

/-- Numeric value of a decimal digit string (what `Number(s)` computes on a
string of digits). -/
def charsToNat (l : List Char) : Nat :=
  l.foldl (fun a c => 10 * a + charToVal c) 0

/-- `String.prototype.split(sep)` on character lists: always returns at least
one (possibly empty) piece. -/
def splitOnSep (sep : Char) : List Char → List (List Char)
  | [] => [[]]
  | c :: rest =>
    match splitOnSep sep rest with
    | [] => [[]]
    | h :: t => if c = sep then [] :: h :: t else (c :: h) :: t

/-- `buildCallback(action, userId)` = `` `${action}:${userId}` ``. -/
def buildCallback (action : List Char) (userId : Nat) : List Char :=
  action ++ ':' :: natToChars userId

/-- `parseCallback(data)`: split on `':'`, take the first piece as the action
and the numeric value of the second as the user id. -/
def parseCallback (data : List Char) : List Char × Nat :=
  let parts := splitOnSep ':' data
  (parts.getD 0 [], charsToNat (parts.getD 1 []))

/-- The `callback_query` handler acting on the loaded ledger: authorization
gate first, then the approve path (grant, referral crediting, invite
issuance, two user messages, review-message annotation, acknowledgment) or
the reject path (user notification, annotation, acknowledgment). -/
def handleCallbackQuery (db : Db) (now : Nat) (adminChatId : Nat)
    (fromId : Nat) (data : List Char) (channelConfigured apiOk : Bool) :
    Db × List Effect :=
  if fromId ≠ adminChatId then
    (db, [Effect.answerCbQuery true])
  else
    let p := parseCallback data
    let action := p.1
    let userId := p.2
    if action = "approve".toList then
      let g := grantSubscription db now userId SUBSCRIPTION_DAYS
      let r := handleReferralOnFirstPayment g.1 now userId
      let _invite := createUniqueInviteLink channelConfigured apiOk now g.2
      (r.1, r.2 ++ [Effect.sendMessage userId, Effect.sendMessage userId,
                    Effect.editMessage, Effect.answerCbQuery false])
    else if action = "reject".toList then
      (db, [Effect.sendMessage userId, Effect.editMessage,
            Effect.answerCbQuery false])
    else (db, [])

/-- A grant as performed by the approve path against the durable store:
`loadDb` (with its catch-all default) followed by `grantSubscription`. -/
def grantSubscriptionFromDisk (raw : Except Unit Db) (now : Nat)
    (userId : Nat) (baseDays : Nat) : Db × Nat :=
  grantSubscription (loadDb raw) now userId baseDays

/-! ### Helper lemmas about the ledger -/

theorem findUser_setUsers (l : List (Nat × UserRecord)) (u x : Nat)
    (v : UserRecord) :
    findUser (setUsers l u v) x = if x = u then some v else findUser l x := by
  induction l with
  | nil =>
    rcases eq_or_ne x u with h | h
    · subst h; simp [setUsers, findUser]
    · simp [setUsers, findUser, h, Ne.symm h]
  | cons hd tl ih =>
    obtain ⟨k, w⟩ := hd
    rcases eq_or_ne k u with hk | hk
    · subst hk
      rcases eq_or_ne x k with h | h
      · subst h; simp [setUsers, findUser]
      · simp [setUsers, findUser, h, Ne.symm h]
    · rcases eq_or_ne k x with h | h
      · subst h
        simp [setUsers, findUser, hk, Ne.symm hk]
      · simp [setUsers, findUser, hk, h, ih]

theorem Db.find_set (db : Db) (u x : Nat) (v : UserRecord) :
    (db.set u v).find x = if x = u then some v else db.find x := by
  simp [Db.set, Db.find, findUser_setUsers]

theorem findUser_map (f : UserRecord → UserRecord)
    (l : List (Nat × UserRecord)) (u : Nat) :
    findUser (l.map (fun p => (p.1, f p.2))) u = (findUser l u).map f := by
  induction l with
  | nil => simp [findUser]
  | cons hd tl ih =>
    obtain ⟨k, w⟩ := hd
    rcases eq_or_ne k u with h | h <;> simp [findUser, h, ih]

theorem checkExpirations_find (db : Db) (now : Nat) (u : Nat) :
    (checkExpirations true db now).find u = (db.find u).map (sweepRecord now) := by
  simp [checkExpirations, Db.find, findUser_map]

/-! ### Helper lemmas about decimal rendering and parsing -/

theorem digitChar_val : ∀ d, d < 10 → charToVal (Nat.digitChar d) = d := by
  decide

theorem digitChar_ne_colon : ∀ d, d < 10 → Nat.digitChar d ≠ ':' := by
  decide

theorem natToCharsAux_eq (fuel : Nat) :
    ∀ n acc, n ≠ 0 → n ≤ fuel →
      natToCharsAux fuel n acc =
        ((Nat.digits 10 n).map Nat.digitChar).reverse ++ acc := by
  induction fuel with
  | zero => intro n acc h0 hle; omega
  | succ fuel ih =>
    intro n acc h0 hle
    rw [natToCharsAux]
    by_cases h10 : n < 10
    · simp only [if_pos h10]
      rw [Nat.digits_def' (by norm_num : 1 < 10) (Nat.pos_of_ne_zero h0),
        Nat.div_eq_of_lt h10]
      simp [Nat.mod_eq_of_lt h10]
    · simp only [if_neg h10]
      have hpos : 0 < n / 10 := Nat.div_pos (Nat.le_of_not_lt h10) (by norm_num)
      have hlt : n / 10 < n :=
        Nat.div_lt_self (Nat.pos_of_ne_zero h0) (by norm_num)
      rw [ih (n / 10) _ (Nat.pos_iff_ne_zero.mp hpos) (by omega)]
      rw [Nat.digits_def' (by norm_num : 1 < 10) (Nat.pos_of_ne_zero h0)]
      simp

theorem natToChars_eq (n : Nat) (h0 : n ≠ 0) :
    natToChars n = ((Nat.digits 10 n).map Nat.digitChar).reverse := by
  rw [natToChars, natToCharsAux_eq (n + 1) n [] h0 (by omega)]
  simp

theorem foldr_digits_eq_ofDigits :
    ∀ ds : List Nat, (∀ d ∈ ds, d < 10) →
      ds.foldr (fun d a => 10 * a + charToVal (Nat.digitChar d)) 0 =
        Nat.ofDigits 10 ds := by
  intro ds
  induction ds with
  | nil => intro _; simp [Nat.ofDigits]
  | cons d rest ih =>
    intro h
    have hd : d < 10 := h d (List.mem_cons_self d rest)
    have hr := ih (fun x hx => h x (List.mem_cons_of_mem d hx))
    simp only [List.foldr_cons, hr, Nat.ofDigits_cons, digitChar_val d hd]
    ring

theorem charsToNat_natToChars (n : Nat) : charsToNat (natToChars n) = n := by
  rcases eq_or_ne n 0 with h | h
  · subst h; decide
  · rw [natToChars_eq n h, charsToNat, List.foldl_reverse, List.foldr_map]
    rw [foldr_digits_eq_ofDigits (Nat.digits 10 n)
      (fun d hd => Nat.digits_lt_base (by norm_num) hd)]
    exact_mod_cast Nat.ofDigits_digits 10 n

theorem colon_not_mem_natToChars (n : Nat) : ':' ∉ natToChars n := by
  rcases eq_or_ne n 0 with h | h
  · subst h; decide
  · rw [natToChars_eq n h]
    intro hmem
    rw [List.mem_reverse] at hmem
    obtain ⟨d, hd, hdc⟩ := List.mem_map.mp hmem
    exact digitChar_ne_colon d (Nat.digits_lt_base (by norm_num) hd) hdc

theorem splitOnSep_ne_nil (sep : Char) (l : List Char) :
    splitOnSep sep l ≠ [] := by
  cases l with
  | nil => simp [splitOnSep]
  | cons c rest =>
    rw [splitOnSep]
    cases splitOnSep sep rest with
    | nil => simp
    | cons h t => dsimp; split <;> simp

theorem splitOnSep_not_mem (sep : Char) (l : List Char) (h : sep ∉ l) :
    splitOnSep sep l = [l] := by
  induction l with
  | nil => simp [splitOnSep]
  | cons c rest ih =>
    have hc : c ≠ sep := fun hh => h (hh ▸ List.mem_cons_self c rest)
    have hrest : sep ∉ rest := fun hh => h (List.mem_cons_of_mem c hh)
    rw [splitOnSep, ih hrest]
    simp [hc]

theorem splitOnSep_append (sep : Char) (a b : List Char) (h : sep ∉ a) :
    splitOnSep sep (a ++ sep :: b) = a :: splitOnSep sep b := by
  induction a with
  | nil =>
    rw [List.nil_append, splitOnSep]
    obtain ⟨hh, t, hht⟩ := List.exists_cons_of_ne_nil (splitOnSep_ne_nil sep b)
    rw [hht]
    simp [hht]
  | cons c rest ih =>
    have hc : c ≠ sep := fun hh => h (hh ▸ List.mem_cons_self c rest)
    have hrest : sep ∉ rest := fun hh => h (List.mem_cons_of_mem c hh)
    rw [List.cons_append, splitOnSep, ih hrest]
    simp [hc]

/-! ### Claim theorems -/

/-- C10: callback-payload encoding round-trips: for every action string not
containing the character `':'` and every numeric user identity,
`parseCallback (buildCallback action userId)` returns exactly
`(action, userId)`, so the approval coordinator always recovers the action
tag and target user identity encoded into the inline button. -/
theorem c10_parse_build_roundtrip (action : List Char) (userId : Nat)
    (h : ':' ∉ action) :
    parseCallback (buildCallback action userId) = (action, userId) := by
  have hsplit : splitOnSep ':' (action ++ ':' :: natToChars userId) =
      action :: [natToChars userId] := by
    rw [splitOnSep_append ':' action (natToChars userId) h,
      splitOnSep_not_mem ':' (natToChars userId)
        (colon_not_mem_natToChars userId)]
  simp [parseCallback, buildCallback, hsplit, charsToNat_natToChars]

/-- Concrete instance of the C10 round-trip at action `"approve"` and user
id `42`. -/
theorem c10_witness :
    ':' ∉ "approve".toList ∧
      parseCallback (buildCallback "approve".toList 42) =
        ("approve".toList, 42) :=
  ⟨by decide, c10_parse_build_roundtrip "approve".toList 42 (by decide)⟩

/-- C1: for every user and every `baseDays`, the grant consumes the staged
`bonusDays` (0 when the user is absent), computes
`totalDays = baseDays + bonusDays`, increments `totalPaidCycles` by 1, sets
the new `expiresAt` by the stacking policy (old `expiresAt + totalDays` days
when still active, `now + totalDays` days otherwise), and the returned value
is exactly the persisted `expiresAt`. -/
theorem c1_grant_correct (db : Db) (now userId baseDays : Nat) :
    (grantSubscription db now userId baseDays).1.find userId =
      some { (db.find userId).getD defaultUser with
              bonusDays := 0
              totalPaidCycles :=
                ((db.find userId).getD defaultUser).totalPaidCycles + 1
              expiresAt := some (grantSubscription db now userId baseDays).2 } ∧
    (grantSubscription db now userId baseDays).2 =
      stackExpiration now ((db.find userId).getD defaultUser).expiresAt
        ((baseDays + ((db.find userId).getD defaultUser).bonusDays) * DAY_MS) := by
  cases hfind : db.find userId with
  | none => simp [grantSubscription, ensureUser, hfind, Db.find_set]
  | some r1 => simp [grantSubscription, ensureUser, hfind, Db.find_set]

/-- C9: the invite expiration is the earlier of `now` plus the 24-hour
maximum lifetime and the user's `expiresAt` (both at second granularity); in
particular for `expiresAt = now + 48h` the invite expires at `now + 24h`
seconds; and when invite creation fails the static fallback reference is
returned. -/
theorem c9_invite_expiration :
    (∀ now e, computeExpireDate now e ≤ now / 1000 + 86400 ∧
        computeExpireDate now e ≤ e / 1000 ∧
        (computeExpireDate now e = e / 1000 ∨
          computeExpireDate now e = now / 1000 + 86400)) ∧
    (∀ now, createUniqueInviteLink true true now (now + 48 * 60 * 60 * 1000) =
        InviteResult.unique (now / 1000 + 86400)) ∧
    (∀ now e, createUniqueInviteLink true false now e =
        InviteResult.fallback) := by
  refine ⟨fun now e => ?_, fun now => ?_, fun now e => ?_⟩
  · refine ⟨?_, ?_, ?_⟩
    · exact min_le_right _ _
    · exact min_le_left _ _
    · rcases le_total (e / 1000) (now / 1000 + 86400) with h | h
      · exact Or.inl (min_eq_left h)
      · exact Or.inr (min_eq_right h)
  · have h1000 : (now + 48 * 60 * 60 * 1000) / 1000 = now / 1000 + 172800 := by
      have h : 48 * 60 * 60 * 1000 = 172800 * 1000 := by norm_num
      rw [h, Nat.add_mul_div_right _ _ (show (0:Nat) < 1000 by norm_num)]
    simp only [createUniqueInviteLink, computeExpireDate, h1000,
      Bool.not_true, Bool.false_eq_true, if_false, if_true]
    rw [min_eq_right (by omega)]
  · simp [createUniqueInviteLink]

/-- C6 counterexample: with the durable read failing, the grant does not
fail and does not propagate an error: `loadDb` silently substitutes the
fresh empty ledger and the grant completes against it, persisting a brand
new record and returning a normal expiration. -/
theorem c6_counterexample :
    grantSubscriptionFromDisk (Except.error ()) 1000 7 30 =
      (⟨[(7, { expiresAt := some 2592001000
               referredBy := none
               referralsCount := 0
               firstPaymentDone := false
               totalPaidCycles := 1
               bonusDays := 0 })]⟩, 2592001000) := by
  decide

/-- C6 amended: a failed ledger read (missing file, unreadable file, parse
error) is silently replaced by the fresh empty ledger `{ users: {} }`, so
the operation proceeds exactly as if the durable store were empty and
completes normally; read failure is not fatal and no error propagates. -/
theorem c6_amended (e : Unit) (now userId baseDays : Nat) :
    grantSubscriptionFromDisk (Except.error e) now userId baseDays =
      grantSubscriptionFromDisk (Except.ok emptyDb) now userId baseDays := rfl

/-- C4: a decision event whose acting identity differs from the configured
administrator performs zero ledger mutations and zero user notifications:
the handler returns the ledger unchanged and only the permission-denied
alert acknowledgment, and this holds for every such event. -/
theorem c4_non_admin_denied (db : Db) (now adminChatId fromId : Nat)
    (data : List Char) (channelConfigured apiOk : Bool)
    (h : fromId ≠ adminChatId) :
    handleCallbackQuery db now adminChatId fromId data channelConfigured
        apiOk = (db, [Effect.answerCbQuery true]) := by
  simp [handleCallbackQuery, h]

/-- Concrete instance of C4: identity 3 clicking while the configured admin
is 1 yields only the alert acknowledgment and no state change. -/
theorem c4_witness :
    (3 : Nat) ≠ 1 ∧
      handleCallbackQuery emptyDb 0 1 3 "approve:7".toList true true =
        (emptyDb, [Effect.answerCbQuery true]) :=
  ⟨by decide,
    c4_non_admin_denied emptyDb 0 1 3 "approve:7".toList true true (by decide)⟩

/-- Exact shape of `handleReferralOnFirstPayment` on the crediting path:
with the referee present, `firstPaymentDone` still false and a truthy
`referredBy` naming an existing record, the handler marks the first payment,
increments the referrer's count, applies the fixed bonus through the
stacking policy, persists, and notifies the referrer.  `refBase` accounts
for the aliasing in the source: the referrer's record is read *after* the
referee's in-memory update, so a self-referential link sees the updated
record. -/
theorem handleReferral_credit (db : Db) (now u : Nat) (r0 refRec : UserRecord)
    (r : Nat) (hu : db.find u = some r0) (hfpd : r0.firstPaymentDone = false)
    (hrb : r0.referredBy = some r) (hr0 : r ≠ 0)
    (hr : db.find r = some refRec) :
    handleReferralOnFirstPayment db now u =
      (let user1 := { r0 with firstPaymentDone := true }
       let refBase := if r = u then user1 else refRec
       ((db.set u user1).set r
          { refBase with
             referralsCount := refBase.referralsCount + 1
             expiresAt := some (stackExpiration now refBase.expiresAt
               (REFERRAL_BONUS_DAYS * DAY_MS)) },
        [Effect.sendMessage r])) := by
  rcases eq_or_ne r u with hru | hru
  · subst hru
    simp [handleReferralOnFirstPayment, ensureUser, hu, hfpd, hrb, hr0,
      Db.find_set]
  · simp [handleReferralOnFirstPayment, ensureUser, hu, hfpd, hrb, hr0,
      Db.find_set, hru, hr]

/-- C2: referral crediting fires at most once per referee: running the
first-payment handler a second time over the ledger the first run produced
is a complete no-op (identical ledger, no notification), so in total the
referrer's `referralsCount` rose by exactly 1 and the bonus-days credit was
applied to the referrer's `expiresAt` exactly once. -/
theorem c2_referral_at_most_once (db : Db) (now1 now2 u : Nat)
    (r0 refRec : UserRecord) (r : Nat)
    (hu : db.find u = some r0) (hfpd : r0.firstPaymentDone = false)
    (hrb : r0.referredBy = some r) (hr0 : r ≠ 0)
    (hr : db.find r = some refRec) :
    handleReferralOnFirstPayment
        (handleReferralOnFirstPayment db now1 u).1 now2 u =
      ((handleReferralOnFirstPayment db now1 u).1, []) ∧
    (((handleReferralOnFirstPayment
        (handleReferralOnFirstPayment db now1 u).1 now2 u).1.find r).map
      (fun x => x.referralsCount)) = some (refRec.referralsCount + 1) ∧
    (((handleReferralOnFirstPayment
        (handleReferralOnFirstPayment db now1 u).1 now2 u).1.find r).map
      (fun x => x.expiresAt)) =
      some (some (stackExpiration now1 refRec.expiresAt
        (REFERRAL_BONUS_DAYS * DAY_MS))) := by
  rw [handleReferral_credit db now1 u r0 refRec r hu hfpd hrb hr0 hr]
  rcases eq_or_ne r u with hru | hru
  · subst hru
    have hrr : refRec = r0 := by
      rw [hu] at hr; exact (Option.some.inj hr).symm
    subst hrr
    simp [handleReferralOnFirstPayment, ensureUser, Db.find_set]
  · simp [handleReferralOnFirstPayment, ensureUser, Db.find_set, hru,
      Ne.symm hru]

/-- Concrete instance of C2: user 2 (referred by 5, first payment pending)
is processed twice; user 5 ends with one referral counted and one 5-day
credit, and the second run changes nothing. -/
theorem c2_witness :
    ((⟨[(2, { defaultUser with referredBy := some 5 }),
        (5, defaultUser)]⟩ : Db).find 2 =
      some { defaultUser with referredBy := some 5 }) ∧
    (((handleReferralOnFirstPayment
        (handleReferralOnFirstPayment
          ⟨[(2, { defaultUser with referredBy := some 5 }),
            (5, defaultUser)]⟩ 100 2).1 200 2).1.find 5).map
      (fun x => x.referralsCount)) = some 1 :=
  ⟨by decide,
    (c2_referral_at_most_once
      ⟨[(2, { defaultUser with referredBy := some 5 }), (5, defaultUser)]⟩
      100 200 2 { defaultUser with referredBy := some 5 } defaultUser 5
      (by decide) (by decide) (by decide) (by decide) (by decide)).2.1⟩

/-- C5: on a referee's first payment, a valid referral link to an existing
record increments the referrer's `referralsCount` by 1, credits exactly
`REFERRAL_BONUS_DAYS` directly onto the referrer's `expiresAt` through the
same stacking policy as a grant, leaves the referrer's `bonusDays` staging
field untouched, and notifies the referrer. -/
theorem c5_referrer_credited (db : Db) (now u : Nat)
    (r0 refRec : UserRecord) (r : Nat)
    (hu : db.find u = some r0) (hfpd : r0.firstPaymentDone = false)
    (hrb : r0.referredBy = some r) (hr0 : r ≠ 0)
    (hr : db.find r = some refRec) :
    (((handleReferralOnFirstPayment db now u).1.find r).map
      (fun x => x.referralsCount)) = some (refRec.referralsCount + 1) ∧
    (((handleReferralOnFirstPayment db now u).1.find r).map
      (fun x => x.expiresAt)) =
      some (some (stackExpiration now refRec.expiresAt
        (REFERRAL_BONUS_DAYS * DAY_MS))) ∧
    (((handleReferralOnFirstPayment db now u).1.find r).map
      (fun x => x.bonusDays)) = some refRec.bonusDays ∧
    (handleReferralOnFirstPayment db now u).2 = [Effect.sendMessage r] := by
  rw [handleReferral_credit db now u r0 refRec r hu hfpd hrb hr0 hr]
  rcases eq_or_ne r u with hru | hru
  · subst hru
    have hrr : refRec = r0 := by
      rw [hu] at hr; exact (Option.some.inj hr).symm
    subst hrr
    simp [Db.find_set]
  · simp [Db.find_set, hru]

/-- Concrete instance of C5: referee 2 pays for the first time; referrer 5
(with no active subscription) gains one referral and a 5-day window
starting at `now = 100`. -/
theorem c5_witness :
    ((⟨[(2, { defaultUser with referredBy := some 5 }),
        (5, defaultUser)]⟩ : Db).find 5 = some defaultUser) ∧
    (((handleReferralOnFirstPayment
        ⟨[(2, { defaultUser with referredBy := some 5 }),
          (5, defaultUser)]⟩ 100 2).1.find 5).map
      (fun x => x.expiresAt)) = some (some (100 + 5 * DAY_MS)) :=
  ⟨by decide,
    (c5_referrer_credited
      ⟨[(2, { defaultUser with referredBy := some 5 }), (5, defaultUser)]⟩
      100 2 { defaultUser with referredBy := some 5 } defaultUser 5
      (by decide) (by decide) (by decide) (by decide) (by decide)).2.1⟩

/-- C3 counterexample: a record with `expiresAt` present and equal to `0`
(hence `≤ now`) survives a full sweep cycle unchanged, because the source
skips falsy expirations (`if (!data.expiresAt) continue`); so a record with
`expiresAt` present and `≤ now` can remain after the sweep. -/
theorem c3_counterexample :
    checkExpirations true ⟨[(1, { defaultUser with expiresAt := some 0 })]⟩ 5 =
      ⟨[(1, { defaultUser with expiresAt := some 0 })]⟩ ∧
    ((⟨[(1, { defaultUser with expiresAt := some 0 })]⟩ : Db).find 1).map
        (fun x => x.expiresAt) = some (some 0) ∧ (0 : Nat) ≤ 5 := by
  refine ⟨by decide, by decide, by omega⟩

/-- An expiration surviving a sweep of one record is either in the future
or the degenerate falsy value `0`. -/
theorem sweepRecord_future (now : Nat) (r2 : UserRecord) (e : Nat)
    (he : (sweepRecord now r2).expiresAt = some e) (h0 : e ≠ 0) : now < e := by
  unfold sweepRecord at he
  split at he
  next heq => rw [heq] at he; exact absurd he (by simp)
  next e2 heq =>
    split at he
    next h2 =>
      rw [heq] at he
      have h4 : e2 = e := Option.some.inj he
      omega
    next h2 =>
      split at he
      next h3 => exact absurd he (by simp)
      next h3 =>
        rw [heq] at he
        have h4 : e2 = e := Option.some.inj he
        omega

/-- C3 amended: after a full sweep at time `now`, no record has an
`expiresAt` that is present, nonzero and `≤ now`: every present truthy
lapsed expiration is cleared to none; only the degenerate value `0` (falsy
in JS and never produced by any grant or credit) is skipped by the sweep. -/
theorem c3_amended (db : Db) (now u : Nat) (rec1 : UserRecord) (e : Nat)
    (hfind : (checkExpirations true db now).find u = some rec1)
    (he : rec1.expiresAt = some e) (h0 : e ≠ 0) : now < e := by
  rw [checkExpirations_find] at hfind
  cases hdb : db.find u with
  | none => rw [hdb] at hfind; exact Option.noConfusion hfind
  | some r2 =>
    rw [hdb] at hfind
    simp only [Option.map_some'] at hfind
    have hrec : rec1 = sweepRecord now r2 := (Option.some.inj hfind).symm
    exact sweepRecord_future now r2 e (by rw [← hrec]; exact he) h0

/-- Concrete instance of the amended C3: a record expiring at 100 survives a
sweep at time 5 and is indeed still in the future. -/
theorem c3_amended_witness :
    ((checkExpirations true
        ⟨[(1, { defaultUser with expiresAt := some 100 })]⟩ 5).find 1 =
      some { defaultUser with expiresAt := some 100 }) ∧ (5 : Nat) < 100 :=
  ⟨by decide,
    c3_amended ⟨[(1, { defaultUser with expiresAt := some 100 })]⟩ 5 1
      { defaultUser with expiresAt := some 100 } 100 (by decide) (by decide)
      (by decide)⟩

/-- C7 counterexample: a first interaction does not always persist a
record.  A plain `/start` with no referral payload leaves the durable
ledger empty (the zero-value record `ensureUser` builds is never saved),
and a start that names user 9 as referral target persists no record for
user 9 either. -/
theorem c7_counterexample :
    (startHandler emptyDb 7 none).1 = emptyDb ∧
    (startHandler emptyDb 7 none).1.find 7 = none ∧
    (startHandler emptyDb 7 (some 9)).1.find 9 = none := by
  refine ⟨by decide, by decide, by decide⟩

/-- C7 amended: `ensureUser` lazily creates the zero-value record in the
loaded ledger, but the record reaches the durable ledger only when the
surrounding operation saves: a start event recording a new referral link
persists the fresh record (zero-valued except the new `referredBy`), a
grant persists it (zero-valued except the new expiration and
`totalPaidCycles = 1`), and first-payment handling persists it (zero-valued
except `firstPaymentDone`); a plain start without a new referral link and a
proof submission persist nothing. -/
theorem c7_amended (db : Db) (u r : Nat)
    (habs : db.find u = none) (hr0 : r ≠ 0) (hru : r ≠ u) :
    (startHandler db u none).1 = db ∧
    (startHandler db u (some r)).1.find u =
      some { defaultUser with referredBy := some r } ∧
    (∀ admin, (submitProofHandler db u admin).1 = db) ∧
    (∀ now d, (grantSubscription db now u d).1.find u =
      some { defaultUser with
              expiresAt := some (now + d * DAY_MS)
              totalPaidCycles := 1 }) ∧
    (∀ now, (handleReferralOnFirstPayment db now u).1.find u =
      some { defaultUser with firstPaymentDone := true }) := by
  refine ⟨?_, ?_, ?_, ?_, ?_⟩
  · simp [startHandler]
  · simp [startHandler, ensureUser, habs, hr0, hru, optTruthy, defaultUser,
      Db.find_set]
  · intro admin
    by_cases h : admin = 0 <;> simp [submitProofHandler, h]
  · intro now d
    simp [grantSubscription, ensureUser, habs, Db.find_set, stackExpiration,
      defaultUser]
  · intro now
    simp [handleReferralOnFirstPayment, ensureUser, habs, Db.find_set,
      defaultUser]

/-- Concrete instance of the amended C7: a fresh user 7 starting with
payload `ref_9` gets exactly the zero-value record plus the link persisted. -/
theorem c7_amended_witness :
    emptyDb.find 7 = none ∧ (9 : Nat) ≠ 0 ∧ (9 : Nat) ≠ 7 ∧
    (startHandler emptyDb 7 (some 9)).1.find 7 =
      some { defaultUser with referredBy := some 9 } :=
  ⟨by decide, by decide, by decide,
    (c7_amended emptyDb 7 9 (by decide) (by decide) (by decide)).2.1⟩

/-! ### Preservation of `referredBy` by every ledger operation (for C8) -/

theorem sweepRecord_referredBy (now : Nat) (r2 : UserRecord) :
    (sweepRecord now r2).referredBy = r2.referredBy := by
  unfold sweepRecord
  split
  · rfl
  · split
    · rfl
    · split <;> rfl

theorem grant_preserves_referredBy (db : Db) (now u2 d u : Nat)
    (r0 : UserRecord) (hu : db.find u = some r0) :
    (((grantSubscription db now u2 d).1.find u).map
      (fun x => x.referredBy)) = some r0.referredBy := by
  cases hfind2 : db.find u2 with
  | none =>
    have hne : u ≠ u2 := by
      intro heq; rw [heq, hfind2] at hu; exact Option.noConfusion hu
    simp [grantSubscription, ensureUser, hfind2, Db.find_set, hne, hu]
  | some uu2 =>
    by_cases h : u = u2
    · subst h
      rw [hu] at hfind2
      have h2 : r0 = uu2 := Option.some.inj hfind2
      subst h2
      simp [grantSubscription, ensureUser, hu, Db.find_set]
    · simp [grantSubscription, ensureUser, hfind2, Db.find_set, h, hu]

theorem handleReferral_preserves_referredBy (db : Db) (now u2 u : Nat)
    (r0 : UserRecord) (hu : db.find u = some r0) :
    (((handleReferralOnFirstPayment db now u2).1.find u).map
      (fun x => x.referredBy)) = some r0.referredBy := by
  cases hfind2 : db.find u2 with
  | none =>
    have hne : u ≠ u2 := by
      intro heq; rw [heq, hfind2] at hu; exact Option.noConfusion hu
    simp [handleReferralOnFirstPayment, ensureUser, hfind2, Db.find_set,
      hne, hu, defaultUser]
  | some uu2 =>
    cases hfpd2 : uu2.firstPaymentDone with
    | true => simp [handleReferralOnFirstPayment, ensureUser, hfind2, hfpd2, hu]
    | false =>
      by_cases h : u = u2
      · subst h
        rw [hu] at hfind2
        have h2 : r0 = uu2 := Option.some.inj hfind2
        subst h2
        cases hrb2 : r0.referredBy with
        | none =>
          simp [handleReferralOnFirstPayment, ensureUser, hu, hfpd2, hrb2,
            Db.find_set]
        | some refId =>
          by_cases hz : refId = 0
          · simp [handleReferralOnFirstPayment, ensureUser, hu, hfpd2, hrb2,
              hz, Db.find_set]
          · by_cases hre : refId = u
            · have hz2 : ¬u = 0 := hre ▸ hz
              simp [handleReferralOnFirstPayment, ensureUser, hu, hfpd2,
                hrb2, hz, hz2, hre, Db.find_set]
            · cases hfr : db.find refId with
              | none =>
                simp [handleReferralOnFirstPayment, ensureUser, hu, hfpd2,
                  hrb2, hz, Db.find_set, hre, Ne.symm hre, hfr]
              | some refU =>
                simp [handleReferralOnFirstPayment, ensureUser, hu, hfpd2,
                  hrb2, hz, Db.find_set, hre, Ne.symm hre, hfr]
      · cases hrb2 : uu2.referredBy with
        | none =>
          simp [handleReferralOnFirstPayment, ensureUser, hfind2, hfpd2,
            hrb2, Db.find_set, h, hu]
        | some refId =>
          by_cases hz : refId = 0
          · simp [handleReferralOnFirstPayment, ensureUser, hfind2, hfpd2,
              hrb2, hz, Db.find_set, h, hu]
          · by_cases hq : refId = u2
            · have hur : u ≠ refId := by rw [hq]; exact h
              have hz2 : ¬u2 = 0 := hq ▸ hz
              simp [handleReferralOnFirstPayment, ensureUser, hfind2, hfpd2,
                hrb2, hz, hz2, hq, Db.find_set, h, hur, hu]
            · by_cases hre : refId = u
              · have h5 : db.find refId = some r0 := by rw [hre]; exact hu
                have hz2 : ¬u = 0 := hre ▸ hz
                simp [handleReferralOnFirstPayment, ensureUser, hfind2,
                  hfpd2, hrb2, hz, hz2, hq, h5, Db.find_set, h, hre, hu]
              · cases hfr : db.find refId with
                | none =>
                  simp [handleReferralOnFirstPayment, ensureUser, hfind2,
                    hfpd2, hrb2, hz, hq, Db.find_set, h, hfr, hu,
                    Ne.symm hre]
                | some refU =>
                  simp [handleReferralOnFirstPayment, ensureUser, hfind2,
                    hfpd2, hrb2, hz, hq, Db.find_set, h, hfr, hu,
                    Ne.symm hre]

theorem sweep_preserves_referredBy (ch : Bool) (db : Db) (now u : Nat)
    (r0 : UserRecord) (hu : db.find u = some r0) :
    (((checkExpirations ch db now).find u).map
      (fun x => x.referredBy)) = some r0.referredBy := by
  cases ch with
  | false => simp [checkExpirations, hu]
  | true => simp [checkExpirations_find, hu, sweepRecord_referredBy]

theorem start_preserves_db_of_linked (db : Db) (u : Nat) (r0 : UserRecord)
    (r : Nat) (hu : db.find u = some r0) (hrb : r0.referredBy = some r)
    (hr0 : r ≠ 0) (payload : Option Nat) :
    (startHandler db u payload).1 = db := by
  cases payload with
  | none => simp [startHandler]
  | some refId =>
    by_cases hc : refId ≠ 0 ∧ refId ≠ u
    · simp [startHandler, ensureUser, hu, hc, optTruthy, hrb, hr0]
    · simp [startHandler, ensureUser, hu, hc]

theorem map_referredBy_exists (o : Option UserRecord) (v : Option Nat)
    (h : o.map (fun x => x.referredBy) = some v) :
    ∃ x, o = some x ∧ x.referredBy = v := by
  cases o with
  | none => exact Option.noConfusion h
  | some x => exact ⟨x, rfl, Option.some.inj h⟩

theorem callback_preserves_referredBy (db : Db) (now admin fromId : Nat)
    (data : List Char) (ch api : Bool) (u : Nat) (r0 : UserRecord)
    (hu : db.find u = some r0) :
    (((handleCallbackQuery db now admin fromId data ch api).1.find u).map
      (fun x => x.referredBy)) = some r0.referredBy := by
  by_cases h : fromId ≠ admin
  · simp [handleCallbackQuery, h, hu]
  · by_cases ha : (parseCallback data).1 = "approve".toList
    · obtain ⟨x, hx, hxr⟩ := map_referredBy_exists _ _
        (grant_preserves_referredBy db now (parseCallback data).2
          SUBSCRIPTION_DAYS u r0 hu)
      have h2 := handleReferral_preserves_referredBy
        (grantSubscription db now (parseCallback data).2 SUBSCRIPTION_DAYS).1
        now (parseCallback data).2 u x hx
      simp [handleCallbackQuery, h, ha, h2, hxr]
    · by_cases hr2 : (parseCallback data).1 = "reject".toList
      · simp [handleCallbackQuery, h, ha, hr2, hu]
      · have ha2 : ¬(parseCallback data).1 =
          ['a', 'p', 'p', 'r', 'o', 'v', 'e'] := ha
        have hr3 : ¬(parseCallback data).1 =
          ['r', 'e', 'j', 'e', 'c', 't'] := hr2
        simp [handleCallbackQuery, h, ha2, hr3, hu]

/-- C8: `referredBy` is write-once and never self-referential: a start
event whose referral payload decodes to the user's own identity changes
nothing; and once `referredBy` holds a valid (nonzero) identity, every
operation of the system — any further start event, any grant, any
first-payment handling, any sweep, and any admin decision event — leaves
the stored link unchanged. -/
theorem c8_referredBy_write_once :
    (∀ db u, (startHandler db u (some u)).1 = db) ∧
    (∀ (db : Db) (u : Nat) (r0 : UserRecord) (r : Nat),
      db.find u = some r0 → r0.referredBy = some r → r ≠ 0 →
        (∀ payload, (startHandler db u payload).1 = db) ∧
        (∀ now u2 d, (((grantSubscription db now u2 d).1.find u).map
            (fun x => x.referredBy)) = some (some r)) ∧
        (∀ now u2, (((handleReferralOnFirstPayment db now u2).1.find u).map
            (fun x => x.referredBy)) = some (some r)) ∧
        (∀ ch now, (((checkExpirations ch db now).find u).map
            (fun x => x.referredBy)) = some (some r)) ∧
        (∀ now admin fromId data ch api,
          (((handleCallbackQuery db now admin fromId data ch api).1.find
            u).map (fun x => x.referredBy)) = some (some r))) := by
  constructor
  · intro db u
    simp [startHandler]
  · intro db u r0 r hu hrb hr0
    refine ⟨start_preserves_db_of_linked db u r0 r hu hrb hr0, ?_, ?_, ?_, ?_⟩
    · intro now u2 d
      rw [grant_preserves_referredBy db now u2 d u r0 hu, hrb]
    · intro now u2
      rw [handleReferral_preserves_referredBy db now u2 u r0 hu, hrb]
    · intro ch now
      rw [sweep_preserves_referredBy ch db now u r0 hu, hrb]
    · intro now admin fromId data ch api
      rw [callback_preserves_referredBy db now admin fromId data ch api u r0
        hu, hrb]

/-- Concrete instance of C8: user 2 already linked to referrer 5 starts
again with a different payload `ref_9`; the durable ledger is unchanged. -/
theorem c8_witness :
    ((⟨[(2, { defaultUser with referredBy := some 5 })]⟩ : Db).find 2 =
      some { defaultUser with referredBy := some 5 }) ∧
    ({ defaultUser with referredBy := some 5 } : UserRecord).referredBy =
      some 5 ∧ (5 : Nat) ≠ 0 ∧
    (startHandler ⟨[(2, { defaultUser with referredBy := some 5 })]⟩ 2
      (some 9)).1 = ⟨[(2, { defaultUser with referredBy := some 5 })]⟩ :=
  ⟨by decide, by decide, by decide,
    (c8_referredBy_write_once.2 ⟨[(2, { defaultUser with referredBy := some 5 })]⟩
      2 { defaultUser with referredBy := some 5 } 5 (by decide) (by decide)
      (by decide)).1 (some 9)⟩

end TandilV4
